import Mathlib

/-!
Verification development for the machinery task-execution engine
(`v1/worker.go`, `v1/tasks/task.go`, `v1/tasks/signature.go`).

The Go source is shallowly embedded: pure logic becomes Lean functions,
the worker's interactions with the result backend and the message broker
become an explicit effect trace driven by an oracle that supplies the
results of each external call.  Dynamic (`interface{}`) values, reflected
function values and reflected return values are embedded as inductive
types carrying exactly the observations the source makes of them
(`Kind()`, `IsNil()`, `Implements(...)`, `Interface()`).
-/

namespace Machinery

/-- Go `error` values that the task package creates or inspects.
`errorString` is `errors.New(msg)`; the named constructors are the
dedicated error variables of the `tasks` package (`ErrTaskPanicked` is
declared in `v1/tasks/task.go`; `ErrTaskReturnsNoValue`,
`ErrLastReturnValueMustBeError` and the `ErrRetryTaskLater` type are
declared in the package's errors file, which mirrors §7 of the spec).
`retryLater` carries the retry delay in nanoseconds (Go `time.Duration`). -/
inductive GoError where
  | errorString (msg : String) : GoError
  | taskPanicked : GoError
  | returnsNoValue : GoError
  | lastReturnMustBeError : GoError
  | retryLater (msg : String) (retryIn : Int) : GoError
  deriving DecidableEq, Repr

/-- One second as a Go `time.Duration` (nanoseconds). -/
def second : Int := 1000000000

/-- The `Error()` method of the embedded error values.  The texts of the
dedicated errors are modelled from the spec (`ReturnsNoValueError`,
`LastReturnMustBeErrorError`); only `ErrTaskPanicked`'s text is in src. -/
def GoError.message : GoError → String
  | .errorString m => m
  | .taskPanicked => "Invoking task caused a panic"
  | .returnsNoValue => "Task must return at least a single value"
  | .lastReturnMustBeError => "Last return value of a task must be error"
  | .retryLater m _ => m

/-- Go reflection `Kind`s distinguished by `Task.ReflectArgs`
(`reflect.Int`, `reflect.Float64`) plus the other kinds appearing in
the embedding.  `ctx` stands for the `context.Context` interface type
recognised by `IsContextType`. -/
inductive GoKind where
  | int
  | int64
  | float64
  | bool
  | string
  | ctx
  | errIface
  deriving DecidableEq, Repr

/-- Dynamic (`interface{}`) values as deserialized signature arguments and
task results.  `float` is a Go `float64`, embedded as an exact rational so
that truncation toward zero is statable; `ctx` is a `context.Context`
value; `err` is a boxed Go error. -/
inductive Value where
  | int (n : Int)
  | int64 (n : Int)
  | float (q : ℚ)
  | bool (b : Bool)
  | str (s : String)
  | ctx
  | err (e : GoError)
  deriving DecidableEq, Repr

/-- `reflect.TypeOf(v).Kind()` on a dynamic value. -/
def Value.kind : Value → GoKind
  | .int _ => .int
  | .int64 _ => .int64
  | .float _ => .float64
  | .bool _ => .bool
  | .str _ => .string
  | .ctx => .ctx
  | .err _ => .errIface

/-- Go's `int(f)` conversion from `float64`: truncation toward zero. -/
def truncQ (q : ℚ) : Int := if 0 ≤ q then ⌊q⌋ else ⌈q⌉

/-- `TaskResult` (`v1/tasks/result.go`, shape as in §3 of the spec):
a runtime type tag and the returned value. -/
structure TaskResult where
  type : String
  value : Value
  deriving DecidableEq, Repr

/-- A reflected return value of a handler (`reflect.Value`), carrying the
observations `Task.Call` makes: `nilV` is a nil interface/pointer value;
`plain` is a non-nil value that implements neither `error` nor
`Retriable`; `goErr` is a non-nil value implementing `error` only;
`retriable` is a non-nil `ErrRetryTaskLater` value (the one implementation
of the `Retriable` interface). -/
inductive RValue where
  | nilV : RValue
  | plain (typeTag : String) (v : Value) : RValue
  | goErr (typeTag : String) (e : GoError) : RValue
  | retriable (msg : String) (retryIn : Int) : RValue
  deriving DecidableEq, Repr

/-- A value raised by `panic`: Go's recover switch distinguishes errors,
strings, and everything else. -/
inductive PanicValue where
  | errVal (e : GoError) : PanicValue
  | strVal (s : String) : PanicValue
  | otherVal (v : Value) : PanicValue
  deriving DecidableEq, Repr

/-- The outcome of the reflected function invocation
(`t.TaskFunc.Call(args)`): either a list of reflected return values or a
panic. -/
inductive CallOutcome where
  | results (rs : List RValue) : CallOutcome
  | panics (p : PanicValue) : CallOutcome

/-- A registered task handler: its reflected parameter kinds
(`Type().In(i).Kind()`, in order, context parameter included when the
function declares one) and its dynamic behaviour once invoked on
type-correct arguments. -/
structure Handler where
  paramKinds : List GoKind
  behavior : List Value → CallOutcome

/-- The per-argument conversion step of `Task.ReflectArgs`
(`v1/tasks/task.go:188-198`): the single special case converts a
`float64` message argument to `int` when the declared parameter kind is
`reflect.Int`; every other argument is passed through unchanged. -/
def coerceArg (origKind : GoKind) (arg : Value) : Value :=
  match origKind, arg with
  | .int, .float f => .int (truncQ f)
  | _, _ => arg

/-- `Task.ReflectArgs` (`v1/tasks/task.go:180-202`): errors when the
number of message arguments differs from the function's `NumIn()`, else
converts each argument with `coerceArg`. -/
def ReflectArgs (paramKinds : List GoKind) (args : List Value) :
    Except String (List Value) :=
  if paramKinds.length ≠ args.length then
    .error ("Number of task arguments " ++ toString paramKinds.length ++
      " does not match number of message arguments " ++ toString args.length)
  else
    .ok ((paramKinds.zip args).map fun pa => coerceArg pa.1 pa.2)

/-- The prepared invocation (`tasks.Task`): the handler, whether a leading
`context.Context` parameter was detected, and the reflected arguments. -/
structure Task where
  handler : Handler
  useContext : Bool
  args : List Value

/-- `tasks.New` (`v1/tasks/task.go:35-57`): detects a leading context
parameter (`IsContextType` on `In(0)`) and reflects the arguments;
a `ReflectArgs` failure aborts construction. -/
def New (h : Handler) (args : List Value) : Except String Task :=
  let useContext : Bool :=
    match h.paramKinds with
    | k :: _ => k = GoKind.ctx
    | [] => false
  match ReflectArgs h.paramKinds args with
  | .error e => .error ("Reflect task args error: " ++ e)
  | .ok vs => .ok ⟨h, useContext, vs⟩

/-- The kind names used in reflect's panic message. -/
def GoKind.name : GoKind → String
  | .int => "int"
  | .int64 => "int64"
  | .float64 => "float64"
  | .bool => "bool"
  | .string => "string"
  | .ctx => "context.Context"
  | .errIface => "error"

/-- Finds the first argument whose kind is not assignable to the declared
parameter kind, mirroring reflect's per-argument check. -/
def firstMismatch : List GoKind → List Value → Option (GoKind × Value)
  | [], _ => none
  | _, [] => none
  | k :: ks, v :: vs =>
    if v.kind = k then firstMismatch ks vs else some (k, v)

/-- Models `reflect.Value.Call`: it panics (with a string message) when
the argument count or an argument type does not match the function's
parameter list, and otherwise runs the function. -/
def reflectCall (h : Handler) (args : List Value) : CallOutcome :=
  if h.paramKinds.length < args.length then
    .panics (.strVal "reflect: Call with too many input arguments")
  else if h.paramKinds.length > args.length then
    .panics (.strVal "reflect: Call with too few input arguments")
  else
    match firstMismatch h.paramKinds args with
    | some kv =>
      .panics (.strVal ("reflect: Call using " ++ kv.2.kind.name ++
        " as type " ++ kv.1.name))
    | none => h.behavior args

/-- The recover switch of `Task.Call`'s deferred handler
(`v1/tasks/task.go:73-81`): a panic with an error value becomes that
error, a string becomes `errors.New` of it, anything else becomes
`ErrTaskPanicked`. -/
def recoverToError : PanicValue → GoError
  | .errVal e => e
  | .strVal s => .errorString s
  | .otherVal _ => .taskPanicked

/-- The wrap step of `Task.Call`'s result loop
(`v1/tasks/task.go:166-174`): each non-error return value becomes a
`TaskResult` tagged with `reflect.TypeOf(val).String()`.  A nil value
makes `TypeOf` return nil and the `String()` call panic with a runtime
error, which the deferred recover turns into that error. -/
def wrapResult : RValue → Except GoError TaskResult
  | .nilV =>
    .error (.errorString
      "runtime error: invalid memory address or nil pointer dereference")
  | .plain t v => .ok ⟨t, v⟩
  | .goErr t e => .ok ⟨t, .err e⟩
  | .retriable m d => .ok ⟨"tasks.ErrRetryTaskLater", .err (.retryLater m d)⟩

/-- The result-conversion loop of `Task.Call` (`v1/tasks/task.go:166-174`)
over the values preceding the final error slot: the first nil value
panics (surfacing as its runtime error through the deferred recover),
otherwise every value is wrapped in order. -/
def wrapResults : List RValue → Except GoError (List TaskResult)
  | [] => .ok []
  | r :: rest =>
    match wrapResult r with
    | .error e => .error e
    | .ok tr =>
      match wrapResults rest with
      | .error e => .error e
      | .ok trs => .ok (tr :: trs)

/-- `Task.Call` (`v1/tasks/task.go:65-177`): prepends the context value
when `UseContext` is set, invokes the reflected function under the
panic-recovering guard, then extracts results: no return values yields
`ErrTaskReturnsNoValue`; a non-nil last value is surfaced as an
`ErrRetryTaskLater` when it implements `Retriable`, as itself when it
implements `error`, and as `ErrLastReturnValueMustBeError` otherwise;
a nil last value lets all preceding values be wrapped as `TaskResult`s. -/
def Task.Call (t : Task) : Except GoError (List TaskResult) :=
  let args := if t.useContext then Value.ctx :: t.args else t.args
  match reflectCall t.handler args with
  | .panics p => .error (recoverToError p)
  | .results rs =>
    match rs.getLast? with
    | none => .error .returnsNoValue
    | some last =>
      match last with
      | .retriable m d => .error (.retryLater m d)
      | .goErr _ e => .error e
      | .plain _ _ => .error .lastReturnMustBeError
      | .nilV => wrapResults rs.dropLast

/-- `tasks.Signature` (`v1/tasks/signature.go:38-53`): one task
invocation.  `eta` is an optional wall-clock time in nanoseconds
(`*time.Time`); `headers` only feed the out-of-scope tracing hooks and
are omitted.  The type is a nested inductive because callbacks are
themselves signatures. -/
inductive Signature where
  | mk
    (task : String)
    (id : String)
    (routingKey : String)
    (eta : Option Int)
    (groupUUID : String)
    (groupTaskCount : Int)
    (args : List Value)
    (immutable : Bool)
    (retryCount : Int)
    (retryTimeout : Int)
    (onSuccess : List Signature)
    (onError : List Signature)
    (chordCallback : Option Signature)

/-- Field accessor for `Signature.Task`. -/
def Signature.task : Signature → String
  | .mk t _ _ _ _ _ _ _ _ _ _ _ _ => t

/-- Field accessor for `Signature.Id`. -/
def Signature.id : Signature → String
  | .mk _ i _ _ _ _ _ _ _ _ _ _ _ => i

/-- Field accessor for `Signature.RoutingKey`. -/
def Signature.routingKey : Signature → String
  | .mk _ _ r _ _ _ _ _ _ _ _ _ _ => r

/-- Field accessor for `Signature.ETA`. -/
def Signature.eta : Signature → Option Int
  | .mk _ _ _ e _ _ _ _ _ _ _ _ _ => e

/-- Field accessor for `Signature.GroupUUID`. -/
def Signature.groupUUID : Signature → String
  | .mk _ _ _ _ g _ _ _ _ _ _ _ _ => g

/-- Field accessor for `Signature.GroupTaskCount`. -/
def Signature.groupTaskCount : Signature → Int
  | .mk _ _ _ _ _ n _ _ _ _ _ _ _ => n

/-- Field accessor for `Signature.Args`. -/
def Signature.args : Signature → List Value
  | .mk _ _ _ _ _ _ a _ _ _ _ _ _ => a

/-- Field accessor for `Signature.Immutable`. -/
def Signature.immutable : Signature → Bool
  | .mk _ _ _ _ _ _ _ im _ _ _ _ _ => im

/-- Field accessor for `Signature.RetryCount`. -/
def Signature.retryCount : Signature → Int
  | .mk _ _ _ _ _ _ _ _ rc _ _ _ _ => rc

/-- Field accessor for `Signature.RetryTimeout`. -/
def Signature.retryTimeout : Signature → Int
  | .mk _ _ _ _ _ _ _ _ _ rt _ _ _ => rt

/-- Field accessor for `Signature.OnSuccess`. -/
def Signature.onSuccess : Signature → List Signature
  | .mk _ _ _ _ _ _ _ _ _ _ s _ _ => s

/-- Field accessor for `Signature.OnError`. -/
def Signature.onError : Signature → List Signature
  | .mk _ _ _ _ _ _ _ _ _ _ _ e _ => e

/-- Field accessor for `Signature.ChordCallback`. -/
def Signature.chordCallback : Signature → Option Signature
  | .mk _ _ _ _ _ _ _ _ _ _ _ _ c => c

/-- In-place update of `Signature.Args` (Go mutates the struct field). -/
def Signature.setArgs : Signature → List Value → Signature
  | .mk t i r e g n _ im rc rt s oe c, a => .mk t i r e g n a im rc rt s oe c

/-- In-place update of `Signature.ETA`. -/
def Signature.setEta : Signature → Option Int → Signature
  | .mk t i r _ g n a im rc rt s oe c, e => .mk t i r e g n a im rc rt s oe c

/-- In-place update of `Signature.RetryCount`. -/
def Signature.setRetryCount : Signature → Int → Signature
  | .mk t i r e g n a im _ rt s oe c, rc => .mk t i r e g n a im rc rt s oe c

/-- In-place update of `Signature.RetryTimeout`. -/
def Signature.setRetryTimeout : Signature → Int → Signature
  | .mk t i r e g n a im rc _ s oe c, rt => .mk t i r e g n a im rc rt s oe c

/-- The Fibonacci sequence as the spec's retry policy presents it:
1, 1, 2, 3, 5, 8, 13, 21, … -/
def fibSeq : Nat → Nat
  | 0 => 1
  | 1 => 1
  | n + 2 => fibSeq n + fibSeq (n + 1)

/-- `m` is a Fibonacci number. -/
def IsFibNumber (m : Int) : Prop := ∃ k, (fibSeq k : Int) = m

/-- The fuelled scan underlying `FibonacciNext`: walks consecutive
Fibonacci pairs until the first member exceeds `start`. -/
def fibGo (start : Int) : Nat → Int → Int → Int
  | 0, a, _ => a
  | fuel + 1, a, b => if start < a then a else fibGo start fuel b (a + b)

/-- Modelled from the spec: `retry.FibonacciNext` (package `v1/retry`,
not under src/) returns the smallest Fibonacci number strictly greater
than `start`; for `start ≤ 0` that is 1.  Embedded as a scan along the
sequence 1, 1, 2, 3, 5, … with enough fuel to pass `start`. -/
def FibonacciNext (start : Int) : Int :=
  fibGo start (start.toNat + 2) 1 1

/-- Modelled from the spec: `tasks.TaskState` (backend-owned task state
record, `{signature_id, state, results, error}`; the state machinery file
is not under src/). -/
structure TaskState where
  taskId : String
  state : String
  results : List TaskResult
  deriving DecidableEq, Repr

/-- Modelled from the spec: `TaskState.IsSuccess` — the state equals the
terminal SUCCESS constant. -/
def TaskState.IsSuccess (s : TaskState) : Bool := s.state == "SUCCESS"

/-- One observable interaction of the worker with the result backend or
the broker, in program order.  Backend calls are recorded even when the
oracle makes them fail (the call was made); `publish` is a
`Server.SendTask` call carrying the exact signature handed to the
broker. -/
inductive Effect where
  | setStateReceived (id : String) : Effect
  | setStateStarted (id : String) : Effect
  | setStateSuccess (id : String) (results : List TaskResult) : Effect
  | setStateFailure (id : String) (errMsg : String) : Effect
  | setStateRetry (id : String) : Effect
  | publish (sig : Signature) : Effect
  | groupCompletedCall (g : String) (n : Int) : Effect
  | purgeGroupMeta (g : String) : Effect
  | triggerChordCall (g : String) : Effect
  | groupTaskStatesCall (g : String) (n : Int) : Effect

/-- Oracle for the result backend: the value each backend call returns
during one `Process` run.  The worker makes each call at most once per
run, so one response per call suffices.  `isAMQP` models the
`*amqp.Backend` type test of `Worker.hasAMQPBackend`. -/
structure Backend where
  setReceivedErr : Option String
  setStartedErr : Option String
  setSuccessErr : Option String
  setFailureErr : Option String
  setRetryErr : Option String
  groupCompletedRes : Except String Bool
  triggerChordRes : Except String Bool
  groupTaskStatesRes : Except String (List TaskState)
  isAMQP : Bool

/-- The worker's environment: the server's task registry, the backend
oracle, the result `Server.SendTask` returns, and the current wall-clock
time in nanoseconds (`time.Now()`). -/
structure WorkerEnv where
  registered : String → Option Handler
  backend : Backend
  sendTaskErr : Option String
  now : Int

/-- `Worker.taskFailed` (`v1/worker.go:316-337`): records FAILURE (an
error there aborts with a wrapped message), then publishes every
`OnError` callback with the error text prepended to its args, and
returns nil. -/
def taskFailed (env : WorkerEnv) (sig : Signature) (taskErr : GoError) :
    List Effect × Option String :=
  match env.backend.setFailureErr with
  | some e =>
    ([.setStateFailure sig.id taskErr.message],
      some ("Set state to 'failure' for task " ++ sig.id ++
        " returned error: " ++ e))
  | none =>
    (.setStateFailure sig.id taskErr.message ::
      sig.onError.map (fun errorTask =>
        .publish (errorTask.setArgs (.str taskErr.message :: errorTask.args))),
      none)

/-- `Worker.taskRetry` (`v1/worker.go:180-201`): records RETRY,
decrements `RetryCount`, advances `RetryTimeout` to its Fibonacci
successor, sets `ETA` to now plus `RetryTimeout` seconds and republishes
the mutated signature, propagating `SendTask`'s result. -/
def taskRetry (env : WorkerEnv) (sig : Signature) :
    List Effect × Option String :=
  match env.backend.setRetryErr with
  | some e =>
    ([.setStateRetry sig.id],
      some ("Set state to 'retry' for task " ++ sig.id ++
        " returned error: " ++ e))
  | none =>
    let sig1 := (sig.setRetryCount (sig.retryCount - 1)).setRetryTimeout
      (FibonacciNext sig.retryTimeout)
    let sig2 := sig1.setEta (some (env.now + second * sig1.retryTimeout))
    ([.setStateRetry sig.id, .publish sig2], env.sendTaskErr)

/-- `Worker.retryTaskIn` (`v1/worker.go:204-219`): records RETRY, sets
`ETA` to now plus the handler-requested delay and republishes the
signature unchanged otherwise, propagating `SendTask`'s result. -/
def retryTaskIn (env : WorkerEnv) (sig : Signature) (retryIn : Int) :
    List Effect × Option String :=
  match env.backend.setRetryErr with
  | some e =>
    ([.setStateRetry sig.id],
      some ("Set state to 'retry' for task " ++ sig.id ++
        " returned error: " ++ e))
  | none =>
    ([.setStateRetry sig.id, .publish (sig.setEta (some (env.now + retryIn)))],
      env.sendTaskErr)

/-- The loop over group task states in `Worker.taskSucceeded`
(`v1/worker.go:293-304`): a non-SUCCESS member aborts the chord
(`none`); otherwise each member's result values are appended to the
chord callback's args unless the callback is immutable. -/
def chordStatesLoop (cb : Signature) : List TaskState → Option Signature
  | [] => some cb
  | st :: rest =>
    if ¬ st.IsSuccess then none
    else
      chordStatesLoop
        (if cb.immutable = false then
          cb.setArgs (cb.args ++ st.results.map (·.value))
        else cb) rest

/-- The group/chord tail of `Worker.taskSucceeded`
(`v1/worker.go:248-312`), reached when the signature belongs to a group:
a `GroupCompleted` or `TriggerChord` failure aborts with an error, a
`GroupTaskStates` failure returns nil (`v1/worker.go:288-290`), a
non-SUCCESS member silently abandons the chord, and otherwise the chord
callback (as transformed by the state loop) is published.  The deferred
`PurgeGroupMeta` of AMQP backends runs last on every path reached after
group completion. -/
def groupStage (env : WorkerEnv) (sig : Signature) :
    List Effect × Option String :=
  let gc : List Effect :=
    [.groupCompletedCall sig.groupUUID sig.groupTaskCount]
  match env.backend.groupCompletedRes with
  | .error e =>
    (gc, some ("Completed check for group " ++ sig.groupUUID ++
      " returned error: " ++ e))
  | .ok false => (gc, none)
  | .ok true =>
    let deferred : List Effect :=
      if env.backend.isAMQP then [.purgeGroupMeta sig.groupUUID] else []
    match sig.chordCallback with
    | none => (gc ++ deferred, none)
    | some cb =>
      let gc := gc ++ [.triggerChordCall sig.groupUUID]
      match env.backend.triggerChordRes with
      | .error e =>
        (gc ++ deferred,
          some ("Triggering chord for group " ++ sig.groupUUID ++
            " returned error: " ++ e))
      | .ok false => (gc ++ deferred, none)
      | .ok true =>
        let gc := gc ++
          [.groupTaskStatesCall sig.groupUUID sig.groupTaskCount]
        match env.backend.groupTaskStatesRes with
        | .error _ => (gc ++ deferred, none)
        | .ok states =>
          match chordStatesLoop cb states with
          | none => (gc ++ deferred, none)
          | some cb1 => (gc ++ [.publish cb1] ++ deferred, env.sendTaskErr)

/-- `Worker.taskSucceeded` (`v1/worker.go:223-313`): records SUCCESS,
publishes the `OnSuccess` callbacks (args extended with the results
unless the processed signature is immutable; `SendTask` results are
discarded), and, for a group member, runs the group/chord tail. -/
def taskSucceeded (env : WorkerEnv) (sig : Signature)
    (taskResults : List TaskResult) : List Effect × Option String :=
  match env.backend.setSuccessErr with
  | some e =>
    ([.setStateSuccess sig.id taskResults],
      some ("Set state to 'success' for task " ++ sig.id ++
        " returned error: " ++ e))
  | none =>
    let pre : List Effect :=
      .setStateSuccess sig.id taskResults ::
        sig.onSuccess.map (fun successTask =>
          .publish (if sig.immutable = false then
            successTask.setArgs
              (successTask.args ++ taskResults.map (·.value))
          else successTask))
    if sig.groupUUID = "" then (pre, none)
    else (pre ++ (groupStage env sig).1, (groupStage env sig).2)

/-- The error dispatch of `Worker.Process` (`v1/worker.go:159-174`): an
`ErrRetryTaskLater` goes to `retryTaskIn` with its delay, any other
error to `taskRetry` when `RetryCount > 0` and to `taskFailed`
otherwise. -/
def dispatchError (env : WorkerEnv) (sig : Signature) (err : GoError) :
    List Effect × Option String :=
  match err with
  | .retryLater _ d => retryTaskIn env sig d
  | _ =>
    if sig.retryCount > 0 then taskRetry env sig
    else taskFailed env sig err

/-- `Worker.Process` (`v1/worker.go:119-177`): an unregistered task is a
soft-skip; then RECEIVED is recorded, the invocation is built
(`tasks.New`; a build failure takes the failure path and returns the
build error), STARTED is recorded, the task is called, and the outcome
is dispatched: an `ErrRetryTaskLater` goes to `retryTaskIn`, any other
error to `taskRetry` when `RetryCount > 0` and to `taskFailed`
otherwise, success to `taskSucceeded`. -/
def Process (env : WorkerEnv) (sig : Signature) :
    List Effect × Option String :=
  match env.registered sig.task with
  | none => ([], none)
  | some taskFunc =>
    match env.backend.setReceivedErr with
    | some e =>
      ([.setStateReceived sig.id],
        some ("Set state to 'received' for task " ++ sig.id ++
          " returned error: " ++ e))
    | none =>
      match New taskFunc sig.args with
      | .error e =>
        ((Effect.setStateReceived sig.id) ::
          (taskFailed env sig (.errorString e)).1, some e)
      | .ok task =>
        match env.backend.setStartedErr with
        | some e =>
          ([.setStateReceived sig.id, .setStateStarted sig.id],
            some ("Set state to 'started' for task " ++ sig.id ++
              " returned error: " ++ e))
        | none =>
          let pre : List Effect :=
            [.setStateReceived sig.id, .setStateStarted sig.id]
          match task.Call with
          | .error err =>
            let r := dispatchError env sig err
            (pre ++ r.1, r.2)
          | .ok results =>
            let r := taskSucceeded env sig results
            (pre ++ r.1, r.2)

/-! Helper lemmas: signature field updates touch only their field. -/

@[simp] theorem Signature.setArgs_id (s : Signature) (a : List Value) :
    (s.setArgs a).id = s.id := by cases s; rfl

@[simp] theorem Signature.setArgs_args (s : Signature) (a : List Value) :
    (s.setArgs a).args = a := by cases s; rfl

@[simp] theorem Signature.setArgs_immutable (s : Signature) (a : List Value) :
    (s.setArgs a).immutable = s.immutable := by cases s; rfl

@[simp] theorem Signature.setEta_id (s : Signature) (e : Option Int) :
    (s.setEta e).id = s.id := by cases s; rfl

@[simp] theorem Signature.setEta_eta (s : Signature) (e : Option Int) :
    (s.setEta e).eta = e := by cases s; rfl

@[simp] theorem Signature.setEta_retryCount (s : Signature) (e : Option Int) :
    (s.setEta e).retryCount = s.retryCount := by cases s; rfl

@[simp] theorem Signature.setEta_retryTimeout (s : Signature) (e : Option Int) :
    (s.setEta e).retryTimeout = s.retryTimeout := by cases s; rfl

@[simp] theorem Signature.setEta_args (s : Signature) (e : Option Int) :
    (s.setEta e).args = s.args := by cases s; rfl

@[simp] theorem Signature.setRetryCount_id (s : Signature) (n : Int) :
    (s.setRetryCount n).id = s.id := by cases s; rfl

@[simp] theorem Signature.setRetryCount_retryCount (s : Signature) (n : Int) :
    (s.setRetryCount n).retryCount = n := by cases s; rfl

@[simp] theorem Signature.setRetryCount_retryTimeout (s : Signature) (n : Int) :
    (s.setRetryCount n).retryTimeout = s.retryTimeout := by cases s; rfl

@[simp] theorem Signature.setRetryTimeout_id (s : Signature) (n : Int) :
    (s.setRetryTimeout n).id = s.id := by cases s; rfl

@[simp] theorem Signature.setRetryTimeout_retryCount (s : Signature) (n : Int) :
    (s.setRetryTimeout n).retryCount = s.retryCount := by cases s; rfl

@[simp] theorem Signature.setRetryTimeout_retryTimeout (s : Signature) (n : Int) :
    (s.setRetryTimeout n).retryTimeout = n := by cases s; rfl

/-! Facts about the Fibonacci sequence and `FibonacciNext`. -/

theorem fibSeq_pos : ∀ k, 1 ≤ fibSeq k
  | 0 => le_refl 1
  | 1 => le_refl 1
  | n + 2 => by
    have h1 := fibSeq_pos n
    have h2 := fibSeq_pos (n + 1)
    simp only [fibSeq]
    omega

theorem fibSeq_ge : ∀ k, k ≤ fibSeq k
  | 0 => Nat.zero_le _
  | 1 => le_refl 1
  | n + 2 => by
    have h1 := fibSeq_pos n
    have h2 := fibSeq_ge (n + 1)
    simp only [fibSeq]
    omega

theorem fibSeq_le_succ : ∀ k, fibSeq k ≤ fibSeq (k + 1)
  | 0 => le_refl 1
  | n + 1 => by
    have h1 := fibSeq_pos n
    show fibSeq (n + 1) ≤ fibSeq (n + 2)
    simp only [fibSeq]
    omega

theorem fibSeq_mono : Monotone fibSeq :=
  monotone_nat_of_le_succ fibSeq_le_succ

/-- The fuelled scan of `FibonacciNext` lands on a Fibonacci number that
exceeds `start` while all earlier Fibonacci numbers do not. -/
theorem fibGo_correct (start : Int) :
    ∀ (fuel k : Nat),
      (∀ j, j < k → (fibSeq j : Int) ≤ start) →
      start.toNat + 1 ≤ k + fuel →
      ∃ K, fibGo start fuel (fibSeq k) (fibSeq (k + 1)) = (fibSeq K : Int) ∧
        start < (fibSeq K : Int) ∧ ∀ j, j < K → (fibSeq j : Int) ≤ start
  | 0, k => by
    intro hlow hfuel
    refine ⟨k, rfl, ?_, hlow⟩
    have hk : start.toNat + 1 ≤ k := by omega
    have hfib := fibSeq_ge k
    have hle : start ≤ (start.toNat : Int) := Int.self_le_toNat start
    have : (k : Int) ≤ (fibSeq k : Int) := by exact_mod_cast hfib
    omega
  | fuel + 1, k => by
    intro hlow hfuel
    simp only [fibGo]
    by_cases h : start < (fibSeq k : Int)
    · simp only [if_pos h]
      exact ⟨k, rfl, h, hlow⟩
    · simp only [if_neg h]
      have hlow' : ∀ j, j < k + 1 → (fibSeq j : Int) ≤ start := by
        intro j hj
        rcases Nat.lt_succ_iff_lt_or_eq.mp hj with hj' | hj'
        · exact hlow j hj'
        · subst hj'; omega
      have hsum : (fibSeq k : Int) + (fibSeq (k + 1) : Int) =
          (fibSeq (k + 2) : Int) := by
        simp only [fibSeq]
        push_cast
        ring
      have := fibGo_correct start fuel (k + 1) hlow' (by omega)
      rw [hsum]
      exact this

/-- `FibonacciNext start` is the smallest Fibonacci number strictly
greater than `start`, and equals 1 whenever `start ≤ 0`. -/
theorem FibonacciNext_correct (start : Int) :
    IsFibNumber (FibonacciNext start) ∧ start < FibonacciNext start ∧
      (∀ m, IsFibNumber m → start < m → FibonacciNext start ≤ m) ∧
      (start ≤ 0 → FibonacciNext start = 1) := by
  have h0 : ∀ j, j < 0 → (fibSeq j : Int) ≤ start := by omega
  obtain ⟨K, hEq, hGt, hLow⟩ :=
    fibGo_correct start (start.toNat + 2) 0 h0 (by omega)
  have hMain : FibonacciNext start = (fibSeq K : Int) := by
    have : FibonacciNext start =
        fibGo start (start.toNat + 2) (fibSeq 0) (fibSeq 1) := rfl
    rw [this, show ((fibSeq 0 : Nat) : Int) = (fibSeq (0 + 1) : Int) from rfl] at *
    exact hEq
  refine ⟨⟨K, hMain.symm⟩, hMain ▸ hGt, ?_, ?_⟩
  · intro m hm hgt
    obtain ⟨k', hk'⟩ := hm
    rcases Nat.lt_or_ge k' K with hlt | hge
    · exact absurd (hLow k' hlt) (by omega)
    · have := fibSeq_mono hge
      rw [hMain, ← hk']
      exact_mod_cast this
  · intro hle
    have hub : FibonacciNext start ≤ 1 := by
      rw [hMain]
      rcases Nat.lt_or_ge 0 K with hlt | hge
      · have hcon := hLow 0 hlt
        simp only [fibSeq, Nat.cast_one] at hcon
        omega
      · have hK : K = 0 := by omega
        subst hK
        simp only [fibSeq, Nat.cast_one, le_refl]
    have hlb : (1 : Int) ≤ FibonacciNext start := by
      rw [hMain]
      exact_mod_cast fibSeq_pos K
    omega

/-! Concrete fixtures used by the witnesses. -/

/-- A backend oracle on which every state write succeeds, no group is
complete, no chord fires and no group states are available. -/
def backendOK : Backend :=
  ⟨none, none, none, none, none, .ok false, .ok false, .error "no stored states", false⟩

/-- A signature for a task name no worker registers. -/
def sigUnreg : Signature :=
  .mk "unknownTask" "task_0" "" none "" 0 [] false 0 0 [] [] none

/-- A worker with an empty registry. -/
def envUnreg : WorkerEnv := ⟨fun _ => none, backendOK, none, 0⟩

/-- C9: for every signature whose task name is not registered with the
worker's server, `Process` returns a nil error and an empty effect
trace: no backend state call, no broker publish, and no handler
invocation. -/
theorem process_soft_skip (env : WorkerEnv) (sig : Signature)
    (h : env.registered sig.task = none) :
    Process env sig = ([], none) := by
  simp only [Process, h]

/-- Witness for C9 at a concrete worker and signature. -/
theorem process_soft_skip_witness :
    envUnreg.registered sigUnreg.task = none ∧
      Process envUnreg sigUnreg = ([], none) :=
  ⟨rfl, process_soft_skip envUnreg sigUnreg rfl⟩

/-- `dispatchError` on an `ErrRetryTaskLater` always takes the
explicit-delay path. -/
theorem dispatchError_retryLater (env : WorkerEnv) (sig : Signature)
    (m : String) (d : Int) :
    dispatchError env sig (.retryLater m d) = retryTaskIn env sig d := rfl

/-- `dispatchError` on any other error consults `RetryCount`. -/
theorem dispatchError_not_retryLater (env : WorkerEnv) (sig : Signature)
    (err : GoError) (hnrl : ∀ m d, err ≠ GoError.retryLater m d) :
    dispatchError env sig err =
      if sig.retryCount > 0 then taskRetry env sig
      else taskFailed env sig err := by
  cases err with
  | retryLater m d => exact absurd rfl (hnrl m d)
  | errorString m => rfl
  | taskPanicked => rfl
  | returnsNoValue => rfl
  | lastReturnMustBeError => rfl

/-- C4: whenever the handler's error is an `ErrRetryTaskLater` carrying
delay `d` — whatever `RetryCount` is, including 0 — `Process` records
state RETRY, republishes the signature with ETA = now + d, and leaves
`RetryCount` and `RetryTimeout` unchanged. -/
theorem process_retry_later (env : WorkerEnv) (sig : Signature)
    (h : Handler) (task : Task) (m : String) (d : Int)
    (hreg : env.registered sig.task = some h)
    (hnew : New h sig.args = .ok task)
    (hcall : task.Call = .error (.retryLater m d))
    (hrecv : env.backend.setReceivedErr = none)
    (hstart : env.backend.setStartedErr = none)
    (hretry : env.backend.setRetryErr = none)
    (hsend : env.sendTaskErr = none) :
    Process env sig =
      ([.setStateReceived sig.id, .setStateStarted sig.id,
        .setStateRetry sig.id,
        .publish (sig.setEta (some (env.now + d)))], none) ∧
    (sig.setEta (some (env.now + d))).eta = some (env.now + d) ∧
    (sig.setEta (some (env.now + d))).retryCount = sig.retryCount ∧
    (sig.setEta (some (env.now + d))).retryTimeout = sig.retryTimeout := by
  refine ⟨?_, by simp, by simp, by simp⟩
  simp only [Process, hreg, hrecv, hnew, hstart, hcall,
    dispatchError_retryLater, retryTaskIn, hretry, hsend]
  rfl

/-- A handler whose invocation returns `NewErrRetryTaskLater("some error", 4h)`
(the scenario of §8.2 of the spec). -/
def handlerRetryLater : Handler :=
  ⟨[], fun _ => .results [.retriable "some error" (14400 * second)]⟩

/-- A signature for `handlerRetryLater` with `RetryCount = 0`. -/
def sigRetryLater : Signature :=
  .mk "retryLaterTask" "task_rl" "" none "" 0 [] false 0 3 [] [] none

/-- A worker environment registering only `handlerRetryLater`. -/
def envRetryLater : WorkerEnv :=
  ⟨fun n => if n = "retryLaterTask" then some handlerRetryLater else none,
    backendOK, none, 1000⟩

/-- Witness for C4: the 4-hour retry-later scenario with
`RetryCount = 0`. -/
theorem process_retry_later_witness :
    Process envRetryLater sigRetryLater =
      ([.setStateReceived "task_rl", .setStateStarted "task_rl",
        .setStateRetry "task_rl",
        .publish (sigRetryLater.setEta (some (1000 + 14400 * second)))],
        none) ∧
    (sigRetryLater.setEta (some (1000 + 14400 * second))).eta =
      some (1000 + 14400 * second) ∧
    (sigRetryLater.setEta (some (1000 + 14400 * second))).retryCount = 0 ∧
    (sigRetryLater.setEta (some (1000 + 14400 * second))).retryTimeout = 3 :=
  process_retry_later envRetryLater sigRetryLater handlerRetryLater
    ⟨handlerRetryLater, false, []⟩ "some error" (14400 * second)
    rfl rfl rfl rfl rfl rfl rfl

/-- C3: on a handler error that is not an `ErrRetryTaskLater`, with
`RetryCount > 0`, `Process` records state RETRY and republishes the
signature with `RetryCount` decremented by one, `RetryTimeout` advanced
to the smallest Fibonacci number strictly greater than its current value
(1 when that value is ≤ 0), and ETA = now + the new `RetryTimeout` in
seconds. -/
theorem process_default_retry (env : WorkerEnv) (sig : Signature)
    (h : Handler) (task : Task) (err : GoError)
    (hreg : env.registered sig.task = some h)
    (hnew : New h sig.args = .ok task)
    (hcall : task.Call = .error err)
    (hnrl : ∀ m d, err ≠ .retryLater m d)
    (hrc : sig.retryCount > 0)
    (hrecv : env.backend.setReceivedErr = none)
    (hstart : env.backend.setStartedErr = none)
    (hretry : env.backend.setRetryErr = none)
    (hsend : env.sendTaskErr = none) :
    Process env sig =
      ([.setStateReceived sig.id, .setStateStarted sig.id,
        .setStateRetry sig.id,
        .publish (((sig.setRetryCount (sig.retryCount - 1)).setRetryTimeout
          (FibonacciNext sig.retryTimeout)).setEta
          (some (env.now + second * FibonacciNext sig.retryTimeout)))],
        none) ∧
    (((sig.setRetryCount (sig.retryCount - 1)).setRetryTimeout
        (FibonacciNext sig.retryTimeout)).setEta
        (some (env.now + second * FibonacciNext sig.retryTimeout))).retryCount =
      sig.retryCount - 1 ∧
    (((sig.setRetryCount (sig.retryCount - 1)).setRetryTimeout
        (FibonacciNext sig.retryTimeout)).setEta
        (some (env.now + second * FibonacciNext sig.retryTimeout))).retryTimeout =
      FibonacciNext sig.retryTimeout ∧
    (((sig.setRetryCount (sig.retryCount - 1)).setRetryTimeout
        (FibonacciNext sig.retryTimeout)).setEta
        (some (env.now + second * FibonacciNext sig.retryTimeout))).eta =
      some (env.now + second * FibonacciNext sig.retryTimeout) ∧
    IsFibNumber (FibonacciNext sig.retryTimeout) ∧
    sig.retryTimeout < FibonacciNext sig.retryTimeout ∧
    (∀ m, IsFibNumber m → sig.retryTimeout < m →
      FibonacciNext sig.retryTimeout ≤ m) ∧
    (sig.retryTimeout ≤ 0 → FibonacciNext sig.retryTimeout = 1) := by
  obtain ⟨hfib, hgt, hmin, hone⟩ := FibonacciNext_correct sig.retryTimeout
  refine ⟨?_, by simp, by simp, by simp, hfib, hgt, hmin, hone⟩
  simp only [Process, hreg, hrecv, hnew, hstart, hcall,
    dispatchError_not_retryLater env sig err hnrl, if_pos hrc]
  simp [taskRetry, hretry, hsend]

/-- A handler whose invocation returns a plain generic error. -/
def handlerGenericErr : Handler :=
  ⟨[], fun _ => .results [.goErr "*errors.errorString" (.errorString "some error")]⟩

/-- A signature for `handlerGenericErr` with `RetryCount = 2`,
`RetryTimeout = 3` (the scenario of §8.3 of the spec). -/
def sigDefaultRetry : Signature :=
  .mk "defaultRetryTask" "task_dr" "" none "" 0 [] false 2 3 [] [] none

/-- A worker environment registering only `handlerGenericErr`. -/
def envDefaultRetry : WorkerEnv :=
  ⟨fun n => if n = "defaultRetryTask" then some handlerGenericErr else none,
    backendOK, none, 1000⟩

/-- Witness for C3: from `retry_count = 2`, `retry_timeout = 3`, one
default retry yields `retry_count = 1`, `retry_timeout = 5` and
`eta = now + 5s`. -/
theorem process_default_retry_witness :
    (Process envDefaultRetry sigDefaultRetry =
      ([.setStateReceived "task_dr", .setStateStarted "task_dr",
        .setStateRetry "task_dr",
        .publish (.mk "defaultRetryTask" "task_dr" ""
          (some (1000 + second * 5)) "" 0 [] false 1 5 [] [] none)],
        none)) ∧
    FibonacciNext 3 = 5 :=
  ⟨(process_default_retry envDefaultRetry sigDefaultRetry handlerGenericErr
      ⟨handlerGenericErr, false, []⟩ (.errorString "some error")
      rfl rfl rfl (fun m d hc => GoError.noConfusion hc) (by decide)
      rfl rfl rfl rfl).1,
    rfl⟩

/-- C10: in the chord path, once `TriggerChord` has returned true, an
error from `GroupTaskStates` makes `Process` return nil
(`v1/worker.go:288-290`): the backend error is not propagated to the
broker loop, no task state records it, and the chord callback is
silently never published even though the chord trigger was consumed. -/
theorem process_group_states_error_swallowed (env : WorkerEnv)
    (sig : Signature) (h : Handler) (task : Task)
    (results : List TaskResult) (cb : Signature) (e : String)
    (hreg : env.registered sig.task = some h)
    (hnew : New h sig.args = .ok task)
    (hcall : task.Call = .ok results)
    (hrecv : env.backend.setReceivedErr = none)
    (hstart : env.backend.setStartedErr = none)
    (hsucc : env.backend.setSuccessErr = none)
    (hgrp : ¬ sig.groupUUID = "")
    (hcomp : env.backend.groupCompletedRes = .ok true)
    (hcb : sig.chordCallback = some cb)
    (htrig : env.backend.triggerChordRes = .ok true)
    (hstates : env.backend.groupTaskStatesRes = .error e) :
    Process env sig =
      ([Effect.setStateReceived sig.id, Effect.setStateStarted sig.id,
        Effect.setStateSuccess sig.id results] ++
        sig.onSuccess.map (fun successTask =>
          Effect.publish (if sig.immutable = false then
            successTask.setArgs (successTask.args ++ results.map (·.value))
          else successTask)) ++
        [Effect.groupCompletedCall sig.groupUUID sig.groupTaskCount,
          Effect.triggerChordCall sig.groupUUID,
          Effect.groupTaskStatesCall sig.groupUUID sig.groupTaskCount] ++
        (if env.backend.isAMQP then [Effect.purgeGroupMeta sig.groupUUID]
          else []), none) ∧
    (∀ i m, Effect.setStateFailure i m ∉ (Process env sig).1) ∧
    ((∀ t, t ∈ sig.onSuccess → t.id ≠ cb.id) →
      ∀ s, Effect.publish s ∈ (Process env sig).1 → s.id ≠ cb.id) := by
  have htr : Process env sig =
      ([Effect.setStateReceived sig.id, Effect.setStateStarted sig.id,
        Effect.setStateSuccess sig.id results] ++
        sig.onSuccess.map (fun successTask =>
          Effect.publish (if sig.immutable = false then
            successTask.setArgs (successTask.args ++ results.map (·.value))
          else successTask)) ++
        [Effect.groupCompletedCall sig.groupUUID sig.groupTaskCount,
          Effect.triggerChordCall sig.groupUUID,
          Effect.groupTaskStatesCall sig.groupUUID sig.groupTaskCount] ++
        (if env.backend.isAMQP then [Effect.purgeGroupMeta sig.groupUUID]
          else []), none) := by
    simp only [Process, hreg, hrecv, hnew, hstart, hcall, taskSucceeded,
      groupStage, hsucc, hcomp, hcb, htrig, hstates, if_neg hgrp]
    cases hA : env.backend.isAMQP <;> simp
  refine ⟨htr, ?_, ?_⟩
  · intro i m hmem
    rw [htr] at hmem
    rcases hA : env.backend.isAMQP <;>
      simp [hA, List.mem_append, List.mem_map] at hmem
  · intro hids s hs
    rw [htr] at hs
    rcases hA : env.backend.isAMQP <;>
      simp only [hA, if_true, if_false, List.append_assoc, List.mem_append,
        List.mem_map, List.mem_cons, List.mem_singleton,
        List.not_mem_nil] at hs <;>
    · rcases hs with hs | hs
      · simp at hs
      · rcases hs with ⟨t, ht, heq⟩ | hs
        · obtain rfl := Effect.publish.inj heq
          by_cases him : sig.immutable = false
          · simp [him, hids t ht]
          · simp [him, hids t ht]
        · simp at hs

/-- A handler returning only a nil error (no result values). -/
def handlerNilErr : Handler := ⟨[], fun _ => .results [.nilV]⟩

/-- A chord callback signature. -/
def cbChord : Signature :=
  .mk "chordTask" "task_cb" "" none "" 0 [] false 0 0 [] [] none

/-- A member of group `group_1` (size 3) carrying the chord callback. -/
def sigChordMember : Signature :=
  .mk "memberTask" "task_m1" "" none "group_1" 3 [] false 0 0 [] []
    (some cbChord)

/-- Backend oracle for the C10 scenario: the group is complete, the
chord trigger is won, but reading the group task states fails. -/
def backendStatesFail : Backend :=
  ⟨none, none, none, none, none, .ok true, .ok true,
    .error "connection reset", false⟩

/-- A worker environment registering only `handlerNilErr` under
`memberTask`, backed by `backendStatesFail`. -/
def envStatesFail : WorkerEnv :=
  ⟨fun n => if n = "memberTask" then some handlerNilErr else none,
    backendStatesFail, none, 0⟩

/-- Witness for C10: the concrete run returns nil, records no failure
state, consumes the trigger and never publishes the chord callback. -/
theorem process_group_states_error_swallowed_witness :
    Process envStatesFail sigChordMember =
      ([Effect.setStateReceived "task_m1", Effect.setStateStarted "task_m1",
        Effect.setStateSuccess "task_m1" []] ++ [] ++
        [Effect.groupCompletedCall "group_1" 3,
          Effect.triggerChordCall "group_1",
          Effect.groupTaskStatesCall "group_1" 3] ++ [], none) :=
  (process_group_states_error_swallowed envStatesFail sigChordMember
    handlerNilErr ⟨handlerNilErr, false, []⟩ [] cbChord "connection reset"
    rfl rfl rfl rfl rfl rfl (by decide) rfl rfl rfl rfl).1

/-- C7: any panic raised while invoking the handler is recovered:
`Task.Call` returns (it does not unwind) with a non-nil error determined
by the panic value — a panicked error value is returned as that error, a
string becomes an error with that message, anything else becomes
`ErrTaskPanicked`; consequently `Process` returns with the recovered
error reported as the task's outcome (here: the failure path, for a
non-retriable recovered error with `RetryCount = 0`). -/
theorem task_call_panic_safety :
    (∀ (t : Task) (p : PanicValue),
      reflectCall t.handler
          (if t.useContext then Value.ctx :: t.args else t.args) =
        .panics p →
      t.Call = .error (recoverToError p) ∧
      (∀ e, recoverToError (.errVal e) = e) ∧
      (∀ s, recoverToError (.strVal s) = .errorString s) ∧
      (∀ v, recoverToError (.otherVal v) = .taskPanicked)) ∧
    (∀ (env : WorkerEnv) (sig : Signature) (h : Handler) (task : Task)
      (p : PanicValue),
      env.registered sig.task = some h →
      New h sig.args = .ok task →
      reflectCall task.handler
          (if task.useContext then Value.ctx :: task.args else task.args) =
        .panics p →
      (∀ m d, recoverToError p ≠ .retryLater m d) →
      ¬ sig.retryCount > 0 →
      env.backend.setReceivedErr = none →
      env.backend.setStartedErr = none →
      env.backend.setFailureErr = none →
      Process env sig =
        ([Effect.setStateReceived sig.id, Effect.setStateStarted sig.id,
          Effect.setStateFailure sig.id (recoverToError p).message] ++
          sig.onError.map (fun errorTask =>
            Effect.publish (errorTask.setArgs
              (.str (recoverToError p).message :: errorTask.args))),
          none)) := by
  have hcall : ∀ (t : Task) (p : PanicValue),
      reflectCall t.handler
          (if t.useContext then Value.ctx :: t.args else t.args) =
        .panics p →
      t.Call = .error (recoverToError p) := by
    intro t p hp
    simp only [Task.Call, hp]
  refine ⟨fun t p hp => ⟨hcall t p hp, fun e => rfl, fun s => rfl,
    fun v => rfl⟩, ?_⟩
  intro env sig h task p hreg hnew hp hnrl hrc hrecv hstart hfail
  have hc := hcall task p hp
  simp only [Process, hreg, hrecv, hnew, hstart, hc,
    dispatchError_not_retryLater env sig (recoverToError p) hnrl, if_neg hrc]
  simp only [taskFailed, hfail]
  rfl
/-- A handler whose invocation panics with a non-error, non-string
value. -/
def handlerPanics : Handler := ⟨[], fun _ => .panics (.otherVal (.int 0))⟩

/-- A signature for `handlerPanics` with `RetryCount = 0` and no error
callbacks. -/
def sigPanics : Signature :=
  .mk "panicTask" "task_p" "" none "" 0 [] false 0 0 [] [] none

/-- A worker environment registering only `handlerPanics`. -/
def envPanics : WorkerEnv :=
  ⟨fun n => if n = "panicTask" then some handlerPanics else none,
    backendOK, none, 0⟩

/-- Witness for C7: a panic with a non-error value yields
`ErrTaskPanicked`, and the concrete `Process` run ends in the failure
path carrying its message. -/
theorem task_call_panic_safety_witness :
    Task.Call ⟨handlerPanics, false, []⟩ = .error .taskPanicked ∧
    Process envPanics sigPanics =
      ([Effect.setStateReceived "task_p", Effect.setStateStarted "task_p",
        Effect.setStateFailure "task_p" "Invoking task caused a panic"],
        none) :=
  ⟨(task_call_panic_safety.1 ⟨handlerPanics, false, []⟩
      (.otherVal (.int 0)) rfl).1,
    task_call_panic_safety.2 envPanics sigPanics handlerPanics
      ⟨handlerPanics, false, []⟩ (.otherVal (.int 0)) rfl rfl rfl
      (fun m d hc => GoError.noConfusion hc) (by decide) rfl rfl rfl⟩

/-- Total form of `wrapResult` on the non-nil values that reach the wrap
loop without panicking (the nil case is unreachable under the
side-condition of the theorem using it). -/
def wrapOk : RValue → TaskResult
  | .nilV => ⟨"", .str ""⟩
  | .plain t v => ⟨t, v⟩
  | .goErr t e => ⟨t, .err e⟩
  | .retriable m d => ⟨"tasks.ErrRetryTaskLater", .err (.retryLater m d)⟩

/-- On nil-free prefixes the wrap loop succeeds and wraps each value. -/
theorem wrapResults_ok : ∀ (init : List RValue),
    (∀ r ∈ init, r ≠ RValue.nilV) →
    wrapResults init = .ok (init.map wrapOk)
  | [], _ => rfl
  | r :: rest, h => by
    have hr : r ≠ RValue.nilV := h r (List.mem_cons_self r rest)
    have ih := wrapResults_ok rest (fun x hx => h x (List.mem_cons_of_mem r hx))
    cases r with
    | nilV => exact absurd rfl hr
    | plain t v => simp [wrapResults, wrapResult, ih, wrapOk]
    | goErr t e => simp [wrapResults, wrapResult, ih, wrapOk]
    | retriable m d => simp [wrapResults, wrapResult, ih, wrapOk]

/-- The last element of a list ending in `a` is `a`. -/
theorem getLast_app (l : List RValue) (a : RValue) :
    (l ++ [a]).getLast? = some a := List.getLast?_concat l

/-- Dropping the last element of a list ending in `a` yields its
prefix. -/
theorem dropLast_app (l : List RValue) (a : RValue) :
    (l ++ [a]).dropLast = l := List.dropLast_concat

/-- C8: return-value extraction in `Task.Call`: zero returned values
yield `ErrTaskReturnsNoValue`; a non-nil last value is surfaced as a
retry-later error when it implements `Retriable`, as itself when it
implements `error`, and as `ErrLastReturnValueMustBeError` otherwise —
in each case with no task results; a nil last value wraps every
preceding value, in order, as a `TaskResult` tagged with its runtime
type name. -/
theorem task_call_result_extraction (t : Task) (rs : List RValue)
    (hp : reflectCall t.handler
        (if t.useContext then Value.ctx :: t.args else t.args) =
      .results rs) :
    (rs = [] → t.Call = .error .returnsNoValue) ∧
    (∀ init m d, rs = init ++ [.retriable m d] →
      t.Call = .error (.retryLater m d)) ∧
    (∀ init tag e, rs = init ++ [.goErr tag e] → t.Call = .error e) ∧
    (∀ init tag v, rs = init ++ [.plain tag v] →
      t.Call = .error .lastReturnMustBeError) ∧
    (∀ init, rs = init ++ [.nilV] → (∀ r ∈ init, r ≠ RValue.nilV) →
      t.Call = .ok (init.map wrapOk)) := by
  refine ⟨?_, ?_, ?_, ?_, ?_⟩
  · intro hnil
    subst hnil
    simp only [Task.Call, hp]
    rfl
  · intro init m d hlast
    subst hlast
    simp only [Task.Call, hp, getLast_app]
  · intro init tag e hlast
    subst hlast
    simp only [Task.Call, hp, getLast_app]
  · intro init tag v hlast
    subst hlast
    simp only [Task.Call, hp, getLast_app]
  · intro init hlast hnn
    subst hlast
    simp only [Task.Call, hp, getLast_app, dropLast_app]
    exact wrapResults_ok init hnn

/-- A handler returning `(π, nil)` (scenario 1 of §8 of the spec, with π
standing for a concrete float value). -/
def handlerPi : Handler :=
  ⟨[], fun _ => .results [.plain "float64" (.float (314159 / 100000)), .nilV]⟩

/-- A handler whose function returns no values at all. -/
def handlerNoVals : Handler := ⟨[], fun _ => .results []⟩

/-- Witness for C8: the `(π, nil)` handler yields one tagged result, and
the zero-return handler yields `ErrTaskReturnsNoValue`. -/
theorem task_call_result_extraction_witness :
    Task.Call ⟨handlerPi, false, []⟩ =
      .ok [⟨"float64", .float (314159 / 100000)⟩] ∧
    Task.Call ⟨handlerNoVals, false, []⟩ = .error .returnsNoValue :=
  ⟨(task_call_result_extraction ⟨handlerPi, false, []⟩
      [.plain "float64" (.float (314159 / 100000)), .nilV] rfl).2.2.2.2
      [.plain "float64" (.float (314159 / 100000))] rfl
      (by simp),
    (task_call_result_extraction ⟨handlerNoVals, false, []⟩ [] rfl).1 rfl⟩

/-- A handler `func(ctx context.Context, x int) error`. -/
def handlerCtxInt : Handler := ⟨[.ctx, .int], fun _ => .results [.nilV]⟩

/-- C2 (code bug): `Task.ReflectArgs` checks the message argument count
against the full `NumIn()` including the leading context parameter,
while `Task.Call` prepends the worker-supplied context.  So a handler
`func(ctx context.Context, x int) error` given the single message
argument `5.0` is rejected with an arity error — against the spec and
the repo's own `TestTaskCallWithContext` — and even when the argument
list is padded to `NumIn()`, the invocation panics with "too many input
arguments": a context-aware handler can never be run. -/
theorem context_arity_code_bug :
    New handlerCtxInt [.float 5] =
      .error ("Reflect task args error: Number of task arguments 2 " ++
        "does not match number of message arguments 1") ∧
    New handlerCtxInt [.ctx, .float 5] =
      .ok ⟨handlerCtxInt, true, [.ctx, .int 5]⟩ ∧
    Task.Call ⟨handlerCtxInt, true, [.ctx, .int 5]⟩ =
      .error (.errorString "reflect: Call with too many input arguments") := by
  refine ⟨?_, ?_, rfl⟩
  · rfl
  · show Except.ok ⟨handlerCtxInt, true,
      [coerceArg .ctx .ctx, coerceArg .int (.float 5)]⟩ =
      Except.ok (⟨handlerCtxInt, true, [.ctx, .int 5]⟩ : Task)
    norm_num [coerceArg, truncQ]

/-- C5 counterexample: for a handler parameter of the integer kind
`int64` and a float argument, binding does not coerce at all — the float
is passed through, the invoked parameter never equals `trunc(arg)`, and
the invocation itself dies on the type mismatch. -/
theorem numeric_coercion_counterexample :
    coerceArg GoKind.int64 (.float (7 / 2)) = .float (7 / 2) ∧
    ReflectArgs [GoKind.int64] [.float (7 / 2)] = .ok [.float (7 / 2)] ∧
    Value.float (7 / 2) ≠ Value.int (truncQ (7 / 2)) ∧
    Task.Call ⟨⟨[GoKind.int64], fun _ => .results [.nilV]⟩, false,
        [.float (7 / 2)]⟩ =
      .error (.errorString "reflect: Call using float64 as type int64") :=
  ⟨rfl, rfl, fun hc => Value.noConfusion hc, rfl⟩

/-- Index lemma: the converted argument at each position is `coerceArg`
of the declared kind and the message argument there. -/
theorem coerce_at_index : ∀ (ks : List GoKind) (args : List Value) (i : Nat)
    (k : GoKind) (a : Value), ks[i]? = some k → args[i]? = some a →
    ((ks.zip args).map fun pa => coerceArg pa.1 pa.2)[i]? =
      some (coerceArg k a)
  | [], _, i, k, a => by simp
  | _ :: _, [], i, k, a => by simp
  | k0 :: ks, a0 :: args, 0, k, a => by
    intro hk ha
    simp only [List.getElem?_cons_zero, Option.some.injEq] at hk ha
    subst hk
    subst ha
    simp [List.zip_cons_cons]
  | k0 :: ks, a0 :: args, i + 1, k, a => by
    intro hk ha
    simp only [List.getElem?_cons_succ] at hk ha
    simpa using coerce_at_index ks args i k a hk ha

/-- C5 amended: the float-to-integer truncation applies exactly to
parameters of Go kind `int`: whenever parameter `i` has kind `int` and
message argument `i` is a float `f`, a successful binding carries
`int(trunc(f))` at position `i`. -/
theorem numeric_coercion_int_param (ks : List GoKind) (args out : List Value)
    (i : Nat) (f : ℚ)
    (hok : ReflectArgs ks args = .ok out)
    (hk : ks[i]? = some .int)
    (ha : args[i]? = some (.float f)) :
    out[i]? = some (.int (truncQ f)) := by
  unfold ReflectArgs at hok
  split at hok
  · exact Except.noConfusion hok
  · obtain rfl := (Except.ok.inj hok).symm
    have := coerce_at_index ks args i .int (.float f) hk ha
    simpa [coerceArg] using this

/-- Witness for the amended C5: binding a `3.5` float to an `int`
parameter produces `3`, and the truncation is toward zero on both
sides. -/
theorem numeric_coercion_int_param_witness :
    ReflectArgs [GoKind.int] [.float (7 / 2)] =
      .ok [.int (truncQ (7 / 2))] ∧
    ([Value.int (truncQ (7 / 2))])[0]? = some (.int (truncQ (7 / 2))) ∧
    truncQ (7 / 2) = 3 ∧ truncQ (-7 / 2) = -3 :=
  ⟨rfl,
    numeric_coercion_int_param [GoKind.int] [.float (7 / 2)]
      [.int (truncQ (7 / 2))] 0 (7 / 2) rfl rfl rfl,
    by norm_num [truncQ], by norm_num [truncQ, Int.ceil_eq_iff]⟩

/-- When the chord callback is immutable, the state loop never changes
it. -/
theorem chordStatesLoop_immutable (cb : Signature)
    (him : cb.immutable = true) :
    ∀ (states : List TaskState) (cb1 : Signature),
      chordStatesLoop cb states = some cb1 → cb1 = cb
  | [], cb1 => fun h => (Option.some.inj h).symm
  | st :: rest, cb1 => by
    intro h
    unfold chordStatesLoop at h
    by_cases hst : st.IsSuccess = true
    · rw [if_neg (by simp [hst]), if_neg (by simp [him])] at h
      exact chordStatesLoop_immutable cb him rest cb1 h
    · rw [if_pos hst] at h
      exact Option.noConfusion h

/-- Every publish in the group/chord tail is the chord callback as left
by the state loop, and happens only once `TriggerChord` answered
true. -/
theorem groupStage_publishes (env : WorkerEnv) (sig : Signature)
    (s : Signature)
    (hs : Effect.publish s ∈ (groupStage env sig).1) :
    ∃ cb states, sig.chordCallback = some cb ∧
      env.backend.triggerChordRes = .ok true ∧
      env.backend.groupTaskStatesRes = .ok states ∧
      chordStatesLoop cb states = some s := by
  cases hcomp : env.backend.groupCompletedRes with
  | error e => simp [groupStage, hcomp] at hs
  | ok b =>
    cases b with
    | false => simp [groupStage, hcomp] at hs
    | true =>
      cases hcb : sig.chordCallback with
      | none =>
        cases hA : env.backend.isAMQP <;>
          simp [groupStage, hcomp, hcb, hA] at hs
      | some cb =>
        cases htrig : env.backend.triggerChordRes with
        | error e =>
          cases hA : env.backend.isAMQP <;>
            simp [groupStage, hcomp, hcb, htrig, hA] at hs
        | ok b2 =>
          cases b2 with
          | false =>
            cases hA : env.backend.isAMQP <;>
              simp [groupStage, hcomp, hcb, htrig, hA] at hs
          | true =>
            cases hstates : env.backend.groupTaskStatesRes with
            | error e =>
              cases hA : env.backend.isAMQP <;>
                simp [groupStage, hcomp, hcb, htrig, hstates, hA] at hs
            | ok states =>
              cases hloop : chordStatesLoop cb states with
              | none =>
                cases hA : env.backend.isAMQP <;>
                  simp [groupStage, hcomp, hcb, htrig, hstates, hloop, hA]
                    at hs
              | some cb1 =>
                refine ⟨cb, states, rfl, rfl, rfl, ?_⟩
                cases hA : env.backend.isAMQP <;>
                  simp [groupStage, hcomp, hcb, htrig, hstates, hloop, hA]
                    at hs <;>
                  rw [hs] <;> exact hloop

/-- Every signature published by `Worker.taskSucceeded` is either an
on-success callback (args extended exactly when the processed signature
is mutable) or the outcome of the chord-state loop on the chord
callback, the latter only once `TriggerChord` has answered true. -/
theorem taskSucceeded_publishes (env : WorkerEnv) (sig : Signature)
    (results : List TaskResult) (s : Signature)
    (hs : Effect.publish s ∈ (taskSucceeded env sig results).1) :
    (∃ t, t ∈ sig.onSuccess ∧
      s = (if sig.immutable = false then
        t.setArgs (t.args ++ results.map (·.value)) else t)) ∨
    (∃ cb states, sig.chordCallback = some cb ∧
      env.backend.triggerChordRes = .ok true ∧
      env.backend.groupTaskStatesRes = .ok states ∧
      chordStatesLoop cb states = some s) := by
  cases hsucc : env.backend.setSuccessErr with
  | some e => simp [taskSucceeded, hsucc] at hs
  | none =>
    by_cases hg : sig.groupUUID = ""
    · simp only [taskSucceeded, hsucc, if_pos hg, List.mem_cons,
        List.mem_map] at hs
      rcases hs with hs | ⟨t, ht, heq⟩
      · simp at hs
      · exact Or.inl ⟨t, ht, (Effect.publish.inj heq).symm⟩
    · simp only [taskSucceeded, hsucc, if_neg hg, List.cons_append,
        List.mem_cons, List.mem_append, List.mem_map] at hs
      rcases hs with hs | ⟨t, ht, heq⟩ | hs
      · simp at hs
      · exact Or.inl ⟨t, ht, (Effect.publish.inj heq).symm⟩
      · exact Or.inr (groupStage_publishes env sig s hs)

/-- A mutable chord callback (`Immutable = false`) with empty args. -/
def cbMutable : Signature :=
  .mk "chordCb" "task_cb2" "" none "" 0 [] false 0 0 [] [] none

/-- An immutable member of group `group_2` (size 1) whose chord callback
is the mutable `cbMutable`. -/
def sigImmutableMember : Signature :=
  .mk "memberTask2" "task_m2" "" none "group_2" 1 [] true 0 0 [] []
    (some cbMutable)

/-- A handler returning `(7, nil)`. -/
def handlerSeven : Handler :=
  ⟨[], fun _ => .results [.plain "int" (.int 7), .nilV]⟩

/-- Backend oracle: group complete, chord trigger won, one member state
SUCCESS with result value 7. -/
def backendChordOK : Backend :=
  ⟨none, none, none, none, none, .ok true, .ok true,
    .ok [⟨"task_m2", "SUCCESS", [⟨"int", .int 7⟩]⟩], false⟩

/-- A worker environment registering only `handlerSeven` under
`memberTask2`. -/
def envChordOK : WorkerEnv :=
  ⟨fun n => if n = "memberTask2" then some handlerSeven else none,
    backendChordOK, none, 0⟩

/-- C6 counterexample: a signature with `Immutable = true` whose chord
callback has `Immutable = false`: processing publishes the chord
callback with a member's result value appended to its args — the guard
on the chord path is the callback's own flag
(`v1/worker.go:298`), not the processed signature's. -/
theorem immutable_chord_counterexample :
    sigImmutableMember.immutable = true ∧
    cbMutable.args = [] ∧
    Process envChordOK sigImmutableMember =
      ([Effect.setStateReceived "task_m2", Effect.setStateStarted "task_m2",
        Effect.setStateSuccess "task_m2" [⟨"int", .int 7⟩],
        Effect.groupCompletedCall "group_2" 1,
        Effect.triggerChordCall "group_2",
        Effect.groupTaskStatesCall "group_2" 1,
        Effect.publish (cbMutable.setArgs [.int 7])], none) ∧
    (cbMutable.setArgs [.int 7]).args = [.int 7] :=
  ⟨rfl, rfl, rfl, rfl⟩

/-- C6 amended: on the success path of an immutable signature, the
on-success callbacks are published with untouched args; the chord
callback's args are governed by its own `Immutable` flag, so when that
flag is also true (or there is no chord callback) every published
callback is exactly as stored in the signature. -/
theorem immutable_callbacks_unchanged (env : WorkerEnv) (sig : Signature)
    (results : List TaskResult) (s : Signature)
    (him : sig.immutable = true)
    (hcb : ∀ cb, sig.chordCallback = some cb → cb.immutable = true)
    (hs : Effect.publish s ∈ (taskSucceeded env sig results).1) :
    s ∈ sig.onSuccess ∨ sig.chordCallback = some s := by
  rcases taskSucceeded_publishes env sig results s hs with
    ⟨t, ht, heq⟩ | ⟨cb, states, hcbe, _, _, hloop⟩
  · simp only [him, Bool.true_eq_false, if_false] at heq
    subst heq
    exact Or.inl ht
  · have hcbimm := chordStatesLoop_immutable cb (hcb cb hcbe) states s hloop
    subst hcbimm
    exact Or.inr hcbe

/-- An immutable chord callback. -/
def cbImmutable : Signature :=
  .mk "chordCb3" "task_cb3" "" none "" 0 [] true 0 0 [] [] none

/-- An on-success callback. -/
def cbSucc : Signature :=
  .mk "succCb3" "task_s3" "" none "" 0 [] false 0 0 [] [] none

/-- An immutable member of group `group_3` whose chord callback is also
immutable and which has one on-success callback. -/
def sigImmutableBoth : Signature :=
  .mk "memberTask3" "task_m3" "" none "group_3" 1 [] true 0 0 [cbSucc] []
    (some cbImmutable)

/-- A worker environment for `sigImmutableBoth`, with the group complete
and the chord trigger won. -/
def envImmutableBoth : WorkerEnv :=
  ⟨fun n => if n = "memberTask3" then some handlerSeven else none,
    ⟨none, none, none, none, none, .ok true, .ok true,
      .ok [⟨"task_m3", "SUCCESS", [⟨"int", .int 7⟩]⟩], false⟩, none, 0⟩

/-- Witness for the amended C6: in a concrete immutable run, a published
callback is one of the stored callbacks (here the on-success one). -/
theorem immutable_callbacks_unchanged_witness :
    cbSucc ∈ sigImmutableBoth.onSuccess ∨
      sigImmutableBoth.chordCallback = some cbSucc :=
  immutable_callbacks_unchanged envImmutableBoth sigImmutableBoth
    [⟨"int", .int 7⟩] cbSucc rfl
    (fun cb hc => by rw [← Option.some.inj hc]; rfl)
    (by simp [taskSucceeded, groupStage, chordStatesLoop, envImmutableBoth,
      sigImmutableBoth, cbImmutable, cbSucc, TaskState.IsSuccess,
      Signature.groupUUID, Signature.immutable, Signature.id,
      Signature.onSuccess, Signature.chordCallback, Signature.args,
      Signature.groupTaskCount, Signature.setArgs])

/-- Modelled from the spec: `Backend.TriggerChord` (the backends are not
under src/) is an atomic test-and-set on the group's `chord_triggered`
flag — a call returns true iff the flag was not yet set, and sets it.
`tasRun s n` lists the results of `n` successive calls on one group
whose flag starts at `s`; concurrency is modelled by this arbitrary
serialization, which the atomicity contract guarantees exists. -/
def tasRun : Bool → Nat → List Bool
  | _, 0 => []
  | s, n + 1 => (!s) :: tasRun true n

/-- Recognises a broker publish of the signature with id `cbId`. -/
def isChordPublishOf (cbId : String) : Effect → Bool
  | .publish s => s.id == cbId
  | _ => false

/-- The processed signature and its immediate success/error callbacks do
not reuse the chord callback's id. -/
def SigAvoids (sig : Signature) (cbId : String) : Prop :=
  sig.id ≠ cbId ∧ (∀ t ∈ sig.onSuccess, t.id ≠ cbId) ∧
    (∀ t ∈ sig.onError, t.id ≠ cbId)

/-- The failure path never publishes under the chord callback's id. -/
theorem taskFailed_chordCount (env : WorkerEnv) (sig : Signature)
    (err : GoError) (cbId : String)
    (hoe : ∀ t ∈ sig.onError, t.id ≠ cbId) :
    (taskFailed env sig err).1.countP (isChordPublishOf cbId) = 0 := by
  cases hf : env.backend.setFailureErr with
  | some e => simp [taskFailed, hf, isChordPublishOf]
  | none =>
    simp only [taskFailed, hf]
    rw [List.countP_eq_zero]
    intro a ha
    simp only [List.mem_cons, List.mem_map] at ha
    rcases ha with rfl | ⟨t, ht, rfl⟩
    · simp [isChordPublishOf]
    · simp [isChordPublishOf, hoe t ht]

/-- The default retry path never publishes under the chord callback's
id. -/
theorem taskRetry_chordCount (env : WorkerEnv) (sig : Signature)
    (cbId : String) (hid : sig.id ≠ cbId) :
    (taskRetry env sig).1.countP (isChordPublishOf cbId) = 0 := by
  cases hr : env.backend.setRetryErr with
  | some e => simp [taskRetry, hr, isChordPublishOf]
  | none => simp [taskRetry, hr, isChordPublishOf, hid]

/-- The explicit-delay retry path never publishes under the chord
callback's id. -/
theorem retryTaskIn_chordCount (env : WorkerEnv) (sig : Signature)
    (d : Int) (cbId : String) (hid : sig.id ≠ cbId) :
    (retryTaskIn env sig d).1.countP (isChordPublishOf cbId) = 0 := by
  cases hr : env.backend.setRetryErr with
  | some e => simp [retryTaskIn, hr, isChordPublishOf]
  | none => simp [retryTaskIn, hr, isChordPublishOf, hid]

/-- The error dispatch never publishes under the chord callback's id. -/
theorem dispatchError_chordCount (env : WorkerEnv) (sig : Signature)
    (err : GoError) (cbId : String) (hid : sig.id ≠ cbId)
    (hoe : ∀ t ∈ sig.onError, t.id ≠ cbId) :
    (dispatchError env sig err).1.countP (isChordPublishOf cbId) = 0 := by
  cases err
  case retryLater m d => exact retryTaskIn_chordCount env sig d cbId hid
  all_goals
    rw [dispatchError_not_retryLater env sig _ (fun _ _ hc => by cases hc)]
  all_goals split
  all_goals first
    | exact taskRetry_chordCount env sig cbId hid
    | exact taskFailed_chordCount env sig _ cbId hoe

/-- The number of chord publishes a `TriggerChord` answer allows: one
for true, none otherwise. -/
def triggerBudget : Except String Bool → Nat
  | .ok true => 1
  | _ => 0

/-- A non-true `TriggerChord` answer allows no publish. -/
theorem triggerBudget_eq_zero (e : Except String Bool)
    (h : e ≠ .ok true) : triggerBudget e = 0 := by
  cases e with
  | error m => rfl
  | ok b =>
    cases b with
    | false => rfl
    | true => exact absurd rfl h

/-- The group/chord tail publishes under any id at most once, and only
when `TriggerChord` answered true. -/
theorem groupStage_chordCount (env : WorkerEnv) (sig : Signature)
    (cbId : String) :
    (groupStage env sig).1.countP (isChordPublishOf cbId) ≤
      triggerBudget env.backend.triggerChordRes := by
  cases hcomp : env.backend.groupCompletedRes with
  | error e => simp [groupStage, hcomp, isChordPublishOf]
  | ok b =>
    cases b with
    | false => simp [groupStage, hcomp, isChordPublishOf]
    | true =>
      cases hcb : sig.chordCallback with
      | none =>
        cases hA : env.backend.isAMQP <;>
          simp [groupStage, hcomp, hcb, hA, isChordPublishOf]
      | some cb =>
        cases htrig : env.backend.triggerChordRes with
        | error e =>
          cases hA : env.backend.isAMQP <;>
            simp [groupStage, hcomp, hcb, htrig, hA, isChordPublishOf,
              triggerBudget]
        | ok b2 =>
          cases b2 with
          | false =>
            cases hA : env.backend.isAMQP <;>
              simp [groupStage, hcomp, hcb, htrig, hA, isChordPublishOf,
                triggerBudget]
          | true =>
            cases hstates : env.backend.groupTaskStatesRes with
            | error e =>
              cases hA : env.backend.isAMQP <;>
                simp [groupStage, hcomp, hcb, htrig, hstates, hA,
                  isChordPublishOf, triggerBudget]
            | ok states =>
              cases hloop : chordStatesLoop cb states with
              | none =>
                cases hA : env.backend.isAMQP <;>
                  simp [groupStage, hcomp, hcb, htrig, hstates, hloop, hA,
                    isChordPublishOf, triggerBudget]
              | some cb1 =>
                cases hA : env.backend.isAMQP <;>
                  simp [groupStage, hcomp, hcb, htrig, hstates, hloop, hA,
                    isChordPublishOf, triggerBudget, List.countP_append,
                    List.countP_cons] <;>
                  split <;> simp

/-- The success path publishes under the chord callback's id at most
once, and only when `TriggerChord` answered true. -/
theorem taskSucceeded_chordCount (env : WorkerEnv) (sig : Signature)
    (results : List TaskResult) (cbId : String)
    (hos : ∀ t ∈ sig.onSuccess, t.id ≠ cbId) :
    (taskSucceeded env sig results).1.countP (isChordPublishOf cbId) ≤
      triggerBudget env.backend.triggerChordRes := by
  cases hsucc : env.backend.setSuccessErr with
  | some e =>
    simp [taskSucceeded, hsucc, isChordPublishOf]
  | none =>
    have hpre : (Effect.setStateSuccess sig.id results ::
        sig.onSuccess.map (fun successTask =>
          Effect.publish (if sig.immutable = false then
            successTask.setArgs
              (successTask.args ++ results.map (·.value))
          else successTask))).countP (isChordPublishOf cbId) = 0 := by
      rw [List.countP_eq_zero]
      intro a ha
      simp only [List.mem_cons, List.mem_map] at ha
      rcases ha with rfl | ⟨t, ht, rfl⟩
      · simp [isChordPublishOf]
      · by_cases him : sig.immutable = false <;>
          simp [him, isChordPublishOf, hos t ht]
    by_cases hg : sig.groupUUID = ""
    · simp only [taskSucceeded, hsucc, if_pos hg, hpre]
      exact Nat.zero_le _
    · simp only [taskSucceeded, hsucc, if_neg hg, List.countP_append, hpre,
        Nat.zero_add]
      exact groupStage_chordCount env sig cbId

/-- One `Process` run publishes under the chord callback's id at most
once, and only when its `TriggerChord` call answered true. -/
theorem process_chordCount (env : WorkerEnv) (sig : Signature)
    (cbId : String) (hav : SigAvoids sig cbId) :
    (Process env sig).1.countP (isChordPublishOf cbId) ≤
      triggerBudget env.backend.triggerChordRes := by
  obtain ⟨hid, hos, hoe⟩ := hav
  cases hreg : env.registered sig.task with
  | none => simp [Process, hreg]
  | some taskFunc =>
    cases hrecv : env.backend.setReceivedErr with
    | some e => simp [Process, hreg, hrecv, isChordPublishOf]
    | none =>
      cases hnew : New taskFunc sig.args with
      | error e =>
        simp only [Process, hreg, hrecv, hnew]
        have h0 := taskFailed_chordCount env sig (.errorString e) cbId hoe
        simp [List.countP_cons, isChordPublishOf, h0]
      | ok task =>
        cases hstart : env.backend.setStartedErr with
        | some e => simp [Process, hreg, hrecv, hnew, hstart, isChordPublishOf]
        | none =>
          cases hcall : task.Call with
          | error err =>
            simp only [Process, hreg, hrecv, hnew, hstart, hcall]
            have h0 := dispatchError_chordCount env sig err cbId hid hoe
            simp [List.countP_append, List.countP_cons, isChordPublishOf, h0]
          | ok results =>
            simp only [Process, hreg, hrecv, hnew, hstart, hcall]
            have h1 := taskSucceeded_chordCount env sig results cbId hos
            calc ([Effect.setStateReceived sig.id,
                Effect.setStateStarted sig.id] ++
                (taskSucceeded env sig results).1).countP
                  (isChordPublishOf cbId) =
                (taskSucceeded env sig results).1.countP
                  (isChordPublishOf cbId) := by
                  simp [List.countP_append, List.countP_cons, isChordPublishOf]
              _ ≤ _ := h1

/-- The pending calls of a triggered flag all answer false. -/
theorem tasRun_true_eq (n : Nat) : tasRun true n = List.replicate n false := by
  induction n with
  | zero => rfl
  | succ k ih => simp [tasRun, ih, List.replicate_succ]

/-- Bounds the total number of chord publishes over serialized workers
whose `TriggerChord` answers follow the test-and-set run. -/
theorem chordSum_le (cbId : String) :
    ∀ (s : Bool) (jobs : List (WorkerEnv × Signature)),
      jobs.map (fun j => j.1.backend.triggerChordRes) =
        (tasRun s jobs.length).map Except.ok →
      (∀ j ∈ jobs, SigAvoids j.2 cbId) →
      (jobs.map (fun j =>
        (Process j.1 j.2).1.countP (isChordPublishOf cbId))).sum ≤
        (if s then 0 else 1)
  | s, [] => by
    intro _ _
    simp
  | s, j :: rest => by
    intro htas hav
    simp only [List.length_cons, tasRun, List.map_cons,
      List.cons.injEq] at htas
    obtain ⟨hj, hrest⟩ := htas
    have hjc := process_chordCount j.1 j.2 cbId
      (hav j (List.mem_cons_self j rest))
    rw [hj] at hjc
    have hrc := chordSum_le cbId true rest hrest
      (fun x hx => hav x (List.mem_cons_of_mem j hx))
    simp only [List.map_cons, List.sum_cons]
    cases s with
    | false =>
      simp only [Bool.not_false, triggerBudget] at hjc
      simp at hrc
      simp only [Bool.false_eq_true, if_false]
      omega
    | true =>
      simp only [Bool.not_true, triggerBudget] at hjc
      simp at hrc
      simp only [if_pos rfl]
      omega

/-- C1: across any number of workers processing member signatures of one
group — serialized at the backend's atomic `TriggerChord` test-and-set,
whose answers one worker at a time are `tasRun false n` — the chord
callback is published at most once in total; a worker whose
`TriggerChord` answer is not true publishes it never; and the
test-and-set answers true to exactly one of the `n ≥ 1` callers. -/
theorem chord_published_at_most_once
    (jobs : List (WorkerEnv × Signature)) (cbId : String)
    (htas : jobs.map (fun j => j.1.backend.triggerChordRes) =
      (tasRun false jobs.length).map Except.ok)
    (hav : ∀ j ∈ jobs, SigAvoids j.2 cbId) :
    (jobs.map (fun j =>
      (Process j.1 j.2).1.countP (isChordPublishOf cbId))).sum ≤ 1 ∧
    (∀ env sig, SigAvoids sig cbId →
      env.backend.triggerChordRes ≠ .ok true →
      (Process env sig).1.countP (isChordPublishOf cbId) = 0) ∧
    (∀ n, (tasRun false (n + 1)).countP (· = true) = 1) := by
  refine ⟨?_, ?_, ?_⟩
  · have := chordSum_le cbId false jobs htas hav
    simpa using this
  · intro env sig hsa htr
    have h := process_chordCount env sig cbId hsa
    rw [triggerBudget_eq_zero _ htr] at h
    omega
  · intro n
    simp [tasRun, tasRun_true_eq, List.countP_replicate]

/-- The chord callback shared by the group members of the C1 witness. -/
def cbW : Signature :=
  .mk "chordTaskW" "task_cb" "" none "" 0 [] false 0 0 [] [] none

/-- First member of group `group_w` (size 2). -/
def sigW1 : Signature :=
  .mk "memberW" "task_w1" "" none "group_w" 2 [] false 0 0 [] [] (some cbW)

/-- Second member of group `group_w`. -/
def sigW2 : Signature :=
  .mk "memberW" "task_w2" "" none "group_w" 2 [] false 0 0 [] [] (some cbW)

/-- The worker that wins the chord trigger: group complete, trigger
true, both member states SUCCESS. -/
def envW1 : WorkerEnv :=
  ⟨fun n => if n = "memberW" then some handlerNilErr else none,
    ⟨none, none, none, none, none, .ok true, .ok true,
      .ok [⟨"task_w1", "SUCCESS", []⟩, ⟨"task_w2", "SUCCESS", []⟩], false⟩,
    none, 0⟩

/-- The worker that loses the chord trigger (`TriggerChord` answers
false). -/
def envW2 : WorkerEnv :=
  ⟨fun n => if n = "memberW" then some handlerNilErr else none,
    ⟨none, none, none, none, none, .ok true, .ok false,
      .ok [⟨"task_w1", "SUCCESS", []⟩, ⟨"task_w2", "SUCCESS", []⟩], false⟩,
    none, 0⟩

/-- Witness for C1: two workers finish the two members of one group; the
test-and-set serialization answers true then false; in total the chord
callback is published exactly once (the winner publishes it, so the
bound is not vacuous). -/
theorem chord_published_at_most_once_witness :
    ([(envW1, sigW1), (envW2, sigW2)].map (fun j =>
      (Process j.1 j.2).1.countP (isChordPublishOf "task_cb"))).sum ≤ 1 ∧
    (Process envW1 sigW1).1.countP (isChordPublishOf "task_cb") = 1 :=
  ⟨(chord_published_at_most_once [(envW1, sigW1), (envW2, sigW2)] "task_cb"
      rfl
      (by
        intro j hj
        rcases List.mem_cons.mp hj with rfl | hj
        · exact ⟨by decide,
            fun t ht => by simp [sigW1, Signature.onSuccess] at ht,
            fun t ht => by simp [sigW1, Signature.onError] at ht⟩
        · rcases List.mem_cons.mp hj with rfl | hj
          · exact ⟨by decide,
              fun t ht => by simp [sigW2, Signature.onSuccess] at ht,
              fun t ht => by simp [sigW2, Signature.onError] at ht⟩
          · simp at hj)).1,
    rfl⟩

end Machinery